import Mathlib

/-!
# Verification of the dual-quaternion / SE(3) spline core of spatialmath-python

Shallow embedding of `spatialmath/DualQuaternion.py` and of the quaternion /
SE(3) collaborator contract it consumes (the `Quaternion`, `UnitQuaternion`,
`SE3` classes and `base.q2r` live outside the sources provided; they are
modelled from the specification's collaborator contract, §1/§6).  Exact
rational arithmetic (`ℚ`) stands in for floating point, so "within floating
tolerance" becomes exact equality; `base.sqrt` (which is `math.sqrt` on
numbers) is modelled by `Real.sqrt`.
-/

namespace SpatialMath

open scoped Matrix

/-- A 3-vector, as used for translations and points (`ArrayLike3`). -/
abbrev Vec3 : Type := Fin 3 → ℚ

/-- Modelled from the spec: the `Quaternion` collaborator is a 4-component
value, scalar part `s` plus 3-vector part `(x, y, z)` (spec §6: "quaternion
type with Hamilton product, conjugate, scalar part, pure-part constructor,
`s`/`v` decomposition"). -/
structure Quat where
  s : ℚ
  x : ℚ
  y : ℚ
  z : ℚ
deriving DecidableEq, Repr

namespace Quat

/-- Modelled from the spec: vector part `v` of a quaternion. -/
def v (q : Quat) : Vec3 := ![q.x, q.y, q.z]

/-- Modelled from the spec: Hamilton product of two quaternions. -/
def mul (q p : Quat) : Quat :=
  { s := q.s * p.s - q.x * p.x - q.y * p.y - q.z * p.z
    x := q.s * p.x + q.x * p.s + q.y * p.z - q.z * p.y
    y := q.s * p.y - q.x * p.z + q.y * p.s + q.z * p.x
    z := q.s * p.z + q.x * p.y - q.y * p.x + q.z * p.s }

/-- Modelled from the spec: quaternion conjugate (negate the vector part). -/
def conj (q : Quat) : Quat := ⟨q.s, -q.x, -q.y, -q.z⟩

/-- Modelled from the spec: componentwise quaternion addition. -/
def add (q p : Quat) : Quat := ⟨q.s + p.s, q.x + p.x, q.y + p.y, q.z + p.z⟩

/-- Modelled from the spec: componentwise quaternion subtraction. -/
def sub (q p : Quat) : Quat := ⟨q.s - p.s, q.x - p.x, q.y - p.y, q.z - p.z⟩

/-- Modelled from the spec: scalar multiple of a quaternion (used by
`0.5 * D * S` and `2 * self.dual * ...` in the source). -/
def smul (c : ℚ) (q : Quat) : Quat := ⟨c * q.s, c * q.x, c * q.y, c * q.z⟩

/-- Modelled from the spec: componentwise negation of a quaternion. -/
def neg (q : Quat) : Quat := ⟨-q.s, -q.x, -q.y, -q.z⟩

/-- Modelled from the spec: `Quaternion.Pure(x)`, a quaternion with zero
scalar part embedding a 3-vector. -/
def pure (t : Vec3) : Quat := ⟨0, t 0, t 1, t 2⟩

/-- Modelled from the spec: the identity unit quaternion, what the
zero-argument `UnitQuaternion()` constructor produces. -/
def one : Quat := ⟨1, 0, 0, 0⟩

/-- Squared Euclidean norm of the 4 components (`q·conj(q)` has this as its
scalar part). -/
def normSq (q : Quat) : ℚ := q.s ^ 2 + q.x ^ 2 + q.y ^ 2 + q.z ^ 2

/-- Modelled from the spec: `Quaternion.matrix`, the 4×4 matrix of left
Hamilton multiplication by `q`, acting on 4-component quaternion vectors
`(s, x, y, z)` (spec §3: "the 4×4 left-multiplication matrices of the
respective quaternions"). -/
def lmat (q : Quat) : Matrix (Fin 4) (Fin 4) ℚ :=
  !![q.s, -q.x, -q.y, -q.z;
     q.x,  q.s, -q.z,  q.y;
     q.y,  q.z,  q.s, -q.x;
     q.z, -q.y,  q.x,  q.s]

/-- Modelled from the spec: `Quaternion.vec`, the flat 4-vector
`(s, x, y, z)` of a quaternion. -/
def vec4 (q : Quat) : Fin 4 → ℚ := ![q.s, q.x, q.y, q.z]

/-- Modelled from the spec: `base.q2r`, conversion of a unit quaternion to a
3×3 rotation matrix (`toRotationMatrix` in the collaborator contract),
standard formula for `q = (s, x, y, z)` with `normSq q = 1`. -/
def q2r (q : Quat) : Matrix (Fin 3) (Fin 3) ℚ :=
  !![1 - 2*(q.y^2 + q.z^2), 2*(q.x*q.y - q.s*q.z), 2*(q.x*q.z + q.s*q.y);
     2*(q.x*q.y + q.s*q.z), 1 - 2*(q.x^2 + q.z^2), 2*(q.y*q.z - q.s*q.x);
     2*(q.x*q.z - q.s*q.y), 2*(q.y*q.z + q.s*q.x), 1 - 2*(q.x^2 + q.y^2)]

end Quat

/-- The state of a fully initialized `DualQuaternion` object: real and dual
quaternion parts, plus the runtime class tag (`unit = true` iff the Python
object is an instance of the subclass `UnitDualQuaternion`). -/
structure DualQuat where
  real : Quat
  dual : Quat
  unit : Bool
deriving DecidableEq, Repr

namespace DualQuat

/-- Python `DualQuaternion.Pure(x)`: `cls(UnitQuaternion(), Quaternion.Pure(x))`
(DualQuaternion.py line 78-81); the runtime class of the result of
`DualQuaternion.Pure` is the plain `DualQuaternion`. -/
def pureDQ (x : Vec3) : DualQuat := ⟨Quat.one, Quat.pure x, false⟩

/-- Python `DualQuaternion.conj()` (line 125-144): returns
`DualQuaternion(self.real.conj(), self.dual.conj())` — note the result is
constructed with the base class, hence tag `false`. -/
def conj (d : DualQuat) : DualQuat := ⟨d.real.conj, d.dual.conj, false⟩

/-- Python `DualQuaternion.__add__` (line 146-164) after its asserts:
`DualQuaternion(self.real + right.real, self.dual + right.dual)`. -/
def add (d e : DualQuat) : DualQuat :=
  ⟨d.real.add e.real, d.dual.add e.dual, false⟩

/-- Python `DualQuaternion.__sub__` (line 166-184) after its asserts. -/
def sub (d e : DualQuat) : DualQuat :=
  ⟨d.real.sub e.real, d.dual.sub e.dual, false⟩

/-- Python `DualQuaternion.__mul__` (line 186-216), dual-quaternion branch, after
its asserts: `real = self.real * right.real`,
`dual = self.real * right.dual + self.dual * right.real`.  The source tags
the result `UnitDualQuaternion` when
`isinstance(self, UnitDualQuaternion) and isinstance(self, UnitDualQuaternion)`
— both conjuncts test `self`, so the tag is `d.unit && d.unit`. -/
def mul (d e : DualQuat) : DualQuat :=
  ⟨d.real.mul e.real,
   (d.real.mul e.dual).add (d.dual.mul e.real),
   d.unit && d.unit⟩

/-- The sandwich expression of `DualQuaternion.__mul__`'s point-transform
branch (lines 218-221): `vp = self * DualQuaternion.Pure(v) * self.conj()`
followed by `vp.dual.v` (Python's `*` is left-associative).  For ordinary
3-vector right operands this branch is unreachable: the assert on line 205
evaluates `right.real` and `right.dual` first, and a list or `ndarray` has
no such attributes, so the call raises `AttributeError` (see `pyMulVec3`).
The expression is embedded here only to record what the dead branch would
compute. -/
def transformPoint (d : DualQuat) (v : Vec3) : Vec3 :=
  (((d.mul (pureDQ v)).mul d.conj).dual).v

/-- The radicand pair inside `DualQuaternion.norm` (line 103-123):
`a = self.real * self.real.conj()` and
`b = self.real * self.dual.conj() + self.dual * self.real.conj()`,
of which the norm takes `(sqrt(a.s), sqrt(b.s))`. -/
def normSqPair (d : DualQuat) : ℚ × ℚ :=
  ((d.real.mul d.real.conj).s,
   ((d.real.mul d.dual.conj).add (d.dual.mul d.real.conj)).s)

/-- Python `DualQuaternion.norm()` (line 103-123): `(base.sqrt(a.s), base.sqrt(b.s))`
with `base.sqrt = math.sqrt` on numbers, modelled by `Real.sqrt`. -/
noncomputable def norm (d : DualQuat) : ℝ × ℝ :=
  (Real.sqrt (d.normSqPair.1 : ℝ), Real.sqrt (d.normSqPair.2 : ℝ))

/-- Python `DualQuaternion.vec` (line 249-267) after its assert:
`np.r_[self.real.vec, self.dual.vec]`, the flat 8-vector; the two
4-blocks are indexed by `Sum.inl` / `Sum.inr`. -/
def vecD (d : DualQuat) : (Fin 4 ⊕ Fin 4) → ℚ :=
  Sum.elim d.real.vec4 d.dual.vec4

/-- Python `DualQuaternion.matrix()` (line 223-247) after its assert:
`np.block [[real.matrix, 0], [dual.matrix, real.matrix]]`, the 8×8 block
matrix with blocks indexed by `Sum.inl` / `Sum.inr`. -/
def matrixD (d : DualQuat) : Matrix (Fin 4 ⊕ Fin 4) (Fin 4 ⊕ Fin 4) ℚ :=
  Matrix.fromBlocks d.real.lmat 0 d.dual.lmat d.real.lmat

/-- The rigid-motion invariant of a unit dual quaternion (spec §3): `real` is
a unit quaternion and `dual = ½·t̂·real` for some translation 3-vector `t`
with `t̂` pure; equivalently `normSq real = 1` and the scalar part of
`dual · conj(real)` vanishes. -/
def IsUnitDQ (d : DualQuat) : Prop :=
  d.real.normSq = 1 ∧ (d.dual.mul d.real.conj).s = 0

instance (d : DualQuat) : Decidable d.IsUnitDQ := by
  unfold IsUnitDQ; infer_instance

end DualQuat

/-- Python `UnitDualQuaternion.__init__` from an SE(3) pose (DualQuaternion.py line
325-333): `S = UnitQuaternion(T.R)`, `D = Quaternion.Pure(T.t)`,
`real = S`, `dual = 0.5 * D * S`.  The pose is handed over through the unit
quaternion `s` the collaborator `UnitQuaternion(T.R)` returns (so
`Quat.q2r s = T.R`) and its translation `t`; the constructed object is an
instance of `UnitDualQuaternion`, tag `true`. -/
def fromRt (s : Quat) (t : Vec3) : DualQuat :=
  ⟨s, Quat.smul (1/2) ((Quat.pure t).mul s), true⟩

/-- Python `UnitDualQuaternion.SE3()` (line 335-356): `R = base.q2r(self.real.A)`,
`t = 2 * self.dual * self.real.conj()`, returning the pose assembled by
`base.rt2tr(R, t.v)` — modelled as the pair (rotation matrix, translation
vector). -/
def toSE3 (d : DualQuat) : Matrix (Fin 3) (Fin 3) ℚ × Vec3 :=
  (Quat.q2r d.real, ((Quat.smul 2 d.dual).mul d.real.conj).v)

/-- A Python `DualQuaternion` object as stored: the `real` and `dual`
attributes may each be the `None` sentinel (the empty state set up by the
zero-argument constructor), and the object carries its runtime class tag. -/
structure PyDualQuat where
  real : Option Quat
  dual : Option Quat
  unit : Bool
deriving DecidableEq, Repr

/-- The sentinel-empty dual quaternion: `DualQuaternion()` sets
`self.real = None`, `self.dual = None` (line 61-64). -/
def emptyDQ : PyDualQuat := ⟨none, none, false⟩

/-- View of a fully initialized dual quaternion as a Python object. -/
def toPy (d : DualQuat) : PyDualQuat := ⟨some d.real, some d.dual, d.unit⟩

/-- Whether a Python-level operation raised instead of returning a value. -/
def isError {α : Type} : Except String α → Bool
  | .error _ => true
  | .ok _ => false

/-- Python `DualQuaternion.__add__` with its asserts (line 161-164): fails
when any of the four attribute slots is `None`, else delegates to the
componentwise sum. -/
def pyAdd (a b : PyDualQuat) : Except String PyDualQuat :=
  match a.real, a.dual, b.real, b.dual with
  | some ar, some ad, some br, some bd =>
      .ok (toPy (DualQuat.add ⟨ar, ad, a.unit⟩ ⟨br, bd, b.unit⟩))
  | _, _, _, _ => .error "AssertionError"

/-- Python `DualQuaternion.__sub__` with its asserts (line 181-184). -/
def pySub (a b : PyDualQuat) : Except String PyDualQuat :=
  match a.real, a.dual, b.real, b.dual with
  | some ar, some ad, some br, some bd =>
      .ok (toPy (DualQuat.sub ⟨ar, ad, a.unit⟩ ⟨br, bd, b.unit⟩))
  | _, _, _, _ => .error "AssertionError"

/-- Python `DualQuaternion.__mul__` with its asserts (line 204-216),
dual-quaternion operand branch. -/
def pyMul (a b : PyDualQuat) : Except String PyDualQuat :=
  match a.real, a.dual, b.real, b.dual with
  | some ar, some ad, some br, some bd =>
      .ok (toPy (DualQuat.mul ⟨ar, ad, a.unit⟩ ⟨br, bd, b.unit⟩))
  | _, _, _, _ => .error "AssertionError"

/-- Python `DualQuaternion.__mul__` invoked with a 3-vector right operand
(the `dq * p` form documented on lines 193-194): line 204 asserts that
`self` is fully initialized (`AssertionError` on the empty sentinel), and
line 205 then evaluates `right.real` and `right.dual` — a list 3-vector has
neither attribute and an `ndarray` has no `.dual` — so the call raises
`AttributeError` before the point-transform branch of lines 218-221 can
run; the vector form never returns a value. -/
def pyMulVec3 (a : PyDualQuat) (_v : Vec3) : Except String Vec3 :=
  match a.real, a.dual with
  | some _, some _ => .error "AttributeError"
  | _, _ => .error "AssertionError"

/-- Python `DualQuaternion.matrix()` with its assert (line 243-247). -/
def pyMatrix (a : PyDualQuat) :
    Except String (Matrix (Fin 4 ⊕ Fin 4) (Fin 4 ⊕ Fin 4) ℚ) :=
  match a.real, a.dual with
  | some ar, some ad => .ok (DualQuat.matrixD ⟨ar, ad, a.unit⟩)
  | _, _ => .error "AssertionError"

/-- Python `DualQuaternion.vec` with its assert (line 265-267). -/
def pyVec (a : PyDualQuat) : Except String ((Fin 4 ⊕ Fin 4) → ℚ) :=
  match a.real, a.dual with
  | some ar, some ad => .ok (DualQuat.vecD ⟨ar, ad, a.unit⟩)
  | _, _ => .error "AssertionError"

/-- Python `DualQuaternion.conj()` (line 144): has no `assert`, but on the
empty state `self.real.conj()` is `None.conj()`, which raises
`AttributeError` — fatal either way. -/
def pyConj (a : PyDualQuat) : Except String PyDualQuat :=
  match a.real, a.dual with
  | some ar, some ad => .ok (toPy (DualQuat.conj ⟨ar, ad, a.unit⟩))
  | _, _ => .error "AttributeError"

/-- Python `DualQuaternion.norm()` (line 121-123): has no `assert`, but on
the empty state `self.real * self.real.conj()` dereferences `None`, which
raises — fatal either way. -/
noncomputable def pyNorm (a : PyDualQuat) : Except String (ℝ × ℝ) :=
  match a.real, a.dual with
  | some ar, some ad => .ok (DualQuat.norm ⟨ar, ad, a.unit⟩)
  | _, _ => .error "AttributeError"

/-- An argument as passed to `DualQuaternion.__init__`: omitted (`None`),
a `Quaternion` instance, a numeric vector (list of scalars), or any other
Python value (neither a quaternion nor a vector). -/
inductive Arg : Type
  | noArg : Arg
  | quatArg : Quat → Arg
  | vecArg : List ℚ → Arg
  | otherArg : Arg
deriving DecidableEq, Repr

/-- Whether an argument was actually supplied (is not `None`). -/
def Arg.given : Arg → Bool
  | .noArg => false
  | _ => true

/-- Whether an argument is a `Quaternion` instance. -/
def Arg.isQuat : Arg → Bool
  | .quatArg _ => true
  | _ => false

/-- Conversion from the first/last four entries of an 8-vector to a
quaternion, as `Quaternion(real[0:4])` / `Quaternion(real[4:8])` do. -/
def quatFromList (xs : List ℚ) : Quat :=
  ⟨xs.getD 0 0, xs.getD 1 0, xs.getD 2 0, xs.getD 3 0⟩

/-- Python `DualQuaternion.__init__` (line 34-76), branch for branch:
both `None` → empty state; `dual` `None` and `real` an 8-vector
(`base.isvector(real, 8)`) → split into components 0..3 and 4..7;
both supplied → `ValueError` unless both are `Quaternion` instances
(the source raises the same message for either offender); anything else →
`ValueError("expecting zero or two parameters")`. -/
def dqInit : Arg → Arg → Except String PyDualQuat
  | .noArg, .noArg => .ok emptyDQ
  | .vecArg xs, .noArg =>
      if xs.length = 8 then
        .ok ⟨some (quatFromList (xs.take 4)), some (quatFromList (xs.drop 4)),
             false⟩
      else .error "expecting zero or two parameters"
  | .quatArg _, .noArg => .error "expecting zero or two parameters"
  | .otherArg, .noArg => .error "expecting zero or two parameters"
  | .noArg, _ => .error "expecting zero or two parameters"
  | .quatArg rq, .quatArg dq => .ok ⟨some rq, some dq, false⟩
  | .quatArg _, _ => .error "real part must be a Quaternion subclass"
  | _, _ => .error "real part must be a Quaternion subclass"

end SpatialMath

namespace SpatialMath

open scoped Matrix

lemma Quat.normSq_mul (q p : Quat) : (q.mul p).normSq = q.normSq * p.normSq := by
  simp only [Quat.mul, Quat.normSq]
  ring

lemma DualQuat.inner_mul (r1 d1 r2 d2 : Quat) :
    (((r1.mul d2).add (d1.mul r2)).mul (r1.mul r2).conj).s
      = r1.normSq * (d2.mul r2.conj).s + r2.normSq * (d1.mul r1.conj).s := by
  simp only [Quat.mul, Quat.add, Quat.conj, Quat.normSq]
  ring

lemma DualQuat.normSqPair_fst (d : DualQuat) : d.normSqPair.1 = d.real.normSq := by
  simp only [DualQuat.normSqPair, Quat.mul, Quat.conj, Quat.normSq]
  ring

lemma DualQuat.normSqPair_snd (d : DualQuat) :
    d.normSqPair.2 = 2 * (d.dual.mul d.real.conj).s := by
  simp only [DualQuat.normSqPair, Quat.mul, Quat.conj, Quat.add]
  ring

lemma DualQuat.norm_of_isUnit (d : DualQuat) (h : d.IsUnitDQ) : d.norm = (1, 0) := by
  obtain ⟨h1, h2⟩ := h
  have e1 : d.normSqPair.1 = 1 := by rw [DualQuat.normSqPair_fst, h1]
  have e2 : d.normSqPair.2 = 0 := by rw [DualQuat.normSqPair_snd, h2]; ring
  simp [DualQuat.norm, e1, e2]

lemma DualQuat.mul_isUnit {a b : DualQuat} (ha : a.IsUnitDQ) (hb : b.IsUnitDQ) :
    (a.mul b).IsUnitDQ := by
  obtain ⟨ha1, ha2⟩ := ha
  obtain ⟨hb1, hb2⟩ := hb
  constructor
  · show (a.real.mul b.real).normSq = 1
    rw [Quat.normSq_mul, ha1, hb1]
    norm_num
  · show (((a.real.mul b.dual).add (a.dual.mul b.real)).mul (a.real.mul b.real).conj).s = 0
    rw [DualQuat.inner_mul, ha1, hb1, ha2, hb2]
    ring

lemma fromRt_isUnit (s : Quat) (t : Vec3) (hs : s.normSq = 1) :
    (fromRt s t).IsUnitDQ := by
  refine ⟨hs, ?_⟩
  show ((Quat.smul (1/2) ((Quat.pure t).mul s)).mul s.conj).s = 0
  simp only [Quat.smul, Quat.mul, Quat.conj, Quat.pure]
  ring

/-- C1: SE(3) round trip — for a pose `T` with rotation `R` and translation
`t`, handed to `UnitDualQuaternion.__init__` through the unit quaternion `s`
that the collaborator `UnitQuaternion(T.R)` returns (so `q2r s = R`), the
constructed dual quaternion has `real = s`, `dual = ½·Pure(t)·s`, and
`SE3()` reproduces the pose: the reconstructed rotation matrix equals `R`
and the reconstructed translation (vector part of `2·dual·conj(real)`)
equals `t` — exactly, over `ℚ`. -/
theorem se3_round_trip (s : Quat) (t : Vec3) (R : Matrix (Fin 3) (Fin 3) ℚ)
    (hs : s.normSq = 1) (hR : Quat.q2r s = R) :
    (toSE3 (fromRt s t)).1 = R ∧ (toSE3 (fromRt s t)).2 = t := by
  have hs' : s.s ^ 2 + s.x ^ 2 + s.y ^ 2 + s.z ^ 2 = 1 := hs
  constructor
  · simpa [toSE3, fromRt] using hR
  · have h0 : (toSE3 (fromRt s t)).2 0 = t 0 := by
      simp only [toSE3, fromRt, Quat.smul, Quat.mul, Quat.conj, Quat.pure, Quat.v,
        Matrix.cons_val_zero]
      linear_combination t 0 * hs'
    have h1 : (toSE3 (fromRt s t)).2 1 = t 1 := by
      simp only [toSE3, fromRt, Quat.smul, Quat.mul, Quat.conj, Quat.pure, Quat.v,
        Matrix.cons_val_one, Matrix.head_cons]
      linear_combination t 1 * hs'
    have h2 : (toSE3 (fromRt s t)).2 2 = t 2 := by
      simp only [toSE3, fromRt, Quat.smul, Quat.mul, Quat.conj, Quat.pure, Quat.v,
        Matrix.cons_val_two, Matrix.tail_cons, Matrix.head_cons]
      linear_combination t 2 * hs'
    funext i
    fin_cases i
    · exact h0
    · exact h1
    · exact h2

/-- Witness for C1 at the concrete pose given by the unit quaternion
`(0,1,0,0)` (a half-turn about the x-axis) and translation `(1,2,3)`. -/
theorem se3_round_trip_witness :
    (toSE3 (fromRt ⟨0, 1, 0, 0⟩ ![1, 2, 3])).1 = Quat.q2r ⟨0, 1, 0, 0⟩ ∧
    (toSE3 (fromRt ⟨0, 1, 0, 0⟩ ![1, 2, 3])).2 = ![1, 2, 3] :=
  se3_round_trip ⟨0, 1, 0, 0⟩ ![1, 2, 3] (Quat.q2r ⟨0, 1, 0, 0⟩)
    (by simp [Quat.normSq]) rfl

lemma transformPoint_eq_rotation (s : Quat) (t v : Vec3) (hs : s.normSq = 1) :
    DualQuat.transformPoint (fromRt s t) v = Quat.q2r s *ᵥ v := by
  have hs' : s.s ^ 2 + s.x ^ 2 + s.y ^ 2 + s.z ^ 2 = 1 := hs
  have h0 : DualQuat.transformPoint (fromRt s t) v 0 = (Quat.q2r s *ᵥ v) 0 := by
    simp only [DualQuat.transformPoint, DualQuat.mul, DualQuat.conj, DualQuat.pureDQ,
      fromRt, Quat.mul, Quat.add, Quat.conj, Quat.smul, Quat.pure, Quat.one, Quat.v,
      Quat.q2r, Matrix.mulVec, Matrix.dotProduct, Fin.sum_univ_three,
      Matrix.of_apply, Matrix.cons_val_zero, Matrix.cons_val_one, Matrix.head_cons,
      Matrix.cons_val_two, Matrix.tail_cons]
    linear_combination v 0 * hs'
  have h1 : DualQuat.transformPoint (fromRt s t) v 1 = (Quat.q2r s *ᵥ v) 1 := by
    simp only [DualQuat.transformPoint, DualQuat.mul, DualQuat.conj, DualQuat.pureDQ,
      fromRt, Quat.mul, Quat.add, Quat.conj, Quat.smul, Quat.pure, Quat.one, Quat.v,
      Quat.q2r, Matrix.mulVec, Matrix.dotProduct, Fin.sum_univ_three,
      Matrix.of_apply, Matrix.cons_val_zero, Matrix.cons_val_one, Matrix.head_cons,
      Matrix.cons_val_two, Matrix.tail_cons]
    linear_combination v 1 * hs'
  have h2 : DualQuat.transformPoint (fromRt s t) v 2 = (Quat.q2r s *ᵥ v) 2 := by
    simp only [DualQuat.transformPoint, DualQuat.mul, DualQuat.conj, DualQuat.pureDQ,
      fromRt, Quat.mul, Quat.add, Quat.conj, Quat.smul, Quat.pure, Quat.one, Quat.v,
      Quat.q2r, Matrix.mulVec, Matrix.dotProduct, Fin.sum_univ_three,
      Matrix.of_apply, Matrix.cons_val_zero, Matrix.cons_val_one, Matrix.head_cons,
      Matrix.cons_val_two, Matrix.tail_cons]
    linear_combination v 2 * hs'
  funext i
  fin_cases i
  · exact h0
  · exact h1
  · exact h2

/-- C2: the claim fails on the code — `d * v` with a 3-vector `v` never
returns a value at all: the assert on line 205 dereferences
`right.real`/`right.dual`, which a 3-vector lacks, so every such call
raises `AttributeError` (on a fully initialized `d`; `AssertionError` on
the empty sentinel), and in particular at the pure-translation pose
`t = (1,0,0)` with `v = (0,0,0)` nothing is returned where the claim
requires `T.R @ v + T.t = (1,0,0)` (the value `SE3()` recovers for this
pose). -/
theorem point_transform_failing_input :
    (∀ (a : DualQuat) (v : Vec3), isError (pyMulVec3 (toPy a) v) = true) ∧
    pyMulVec3 (toPy (fromRt Quat.one ![1, 0, 0])) ![0, 0, 0]
      = .error "AttributeError" ∧
    (toSE3 (fromRt Quat.one ![1, 0, 0])).1 *ᵥ ![0, 0, 0]
        + (toSE3 (fromRt Quat.one ![1, 0, 0])).2 = ![1, 0, 0] := by
  refine ⟨fun a v => rfl, rfl, ?_⟩
  funext i
  fin_cases i <;>
    simp [toSE3, fromRt, Quat.q2r, Quat.one, Quat.smul, Quat.mul, Quat.conj,
      Quat.pure, Quat.v, Matrix.mulVec, Matrix.dotProduct, Fin.sum_univ_three]

/-- C3: for two dual quaternions that both satisfy the rigid-motion
invariant and are both tagged `UnitDualQuaternion`, the `__mul__` product
(`real' = real₁·real₂`, `dual' = real₁·dual₂ + dual₁·real₂`) is again
tagged `UnitDualQuaternion`, satisfies the invariant, and has norm `(1,0)`
(exactly, over `ℚ`). -/
theorem unit_mul_closure (a b : DualQuat) (ha : a.IsUnitDQ) (hb : b.IsUnitDQ)
    (hau : a.unit = true) (_hbu : b.unit = true) :
    (a.mul b).unit = true ∧ (a.mul b).IsUnitDQ ∧ (a.mul b).norm = (1, 0) :=
  ⟨by simp [DualQuat.mul, hau],
   DualQuat.mul_isUnit ha hb,
   DualQuat.norm_of_isUnit _ (DualQuat.mul_isUnit ha hb)⟩

/-- Witness for C3 at two concrete unit dual quaternions: the poses with
unit quaternions `(0,1,0,0)` and identity and translations `(1,2,3)`,
`(4,5,6)`. -/
theorem unit_mul_closure_witness :
    ((fromRt ⟨0, 1, 0, 0⟩ ![1, 2, 3]).mul (fromRt Quat.one ![4, 5, 6])).unit = true ∧
    ((fromRt ⟨0, 1, 0, 0⟩ ![1, 2, 3]).mul (fromRt Quat.one ![4, 5, 6])).IsUnitDQ ∧
    ((fromRt ⟨0, 1, 0, 0⟩ ![1, 2, 3]).mul (fromRt Quat.one ![4, 5, 6])).norm = (1, 0) :=
  unit_mul_closure _ _
    (by simp [DualQuat.IsUnitDQ, fromRt, Quat.normSq, Quat.mul, Quat.conj, Quat.smul,
      Quat.pure, Quat.one])
    (by simp [DualQuat.IsUnitDQ, fromRt, Quat.normSq, Quat.mul, Quat.conj, Quat.smul,
      Quat.pure, Quat.one])
    rfl rfl

/-- C5: in the product branch of `__mul__`, the `UnitDualQuaternion` tag of
the result depends only on the runtime type of the left operand (the source
tests `isinstance(self, UnitDualQuaternion)` twice): a unit left operand
times a non-unit right operand is still tagged unit, and for all operands
the result's tag equals the left operand's tag. -/
theorem mul_tag_ignores_right (a b : DualQuat) (ha : a.unit = true)
    (_hb : b.unit = false) :
    (a.mul b).unit = true ∧ ∀ c d : DualQuat, (c.mul d).unit = c.unit := by
  exact ⟨by simp [DualQuat.mul, ha], fun c d => by simp [DualQuat.mul]⟩

/-- Witness for C5: a unit dual quaternion (from a pose) times the plain
dual quaternion `Pure((1,2,3))`. -/
theorem mul_tag_ignores_right_witness :
    ((fromRt Quat.one ![0, 0, 0]).mul (DualQuat.pureDQ ![1, 2, 3])).unit = true ∧
    ∀ c d : DualQuat, (c.mul d).unit = c.unit :=
  mul_tag_ignores_right (fromRt Quat.one ![0, 0, 0]) (DualQuat.pureDQ ![1, 2, 3])
    rfl rfl

/-- C6: `norm()` returns the pair
`(sqrt(scalar(real·conj real)), sqrt(scalar(real·conj dual + dual·conj real)))`,
and on a unit dual quaternion constructed from an SE(3) pose this pair is
`(1, 0)`. -/
theorem norm_dual_number (d : DualQuat) (s : Quat) (t : Vec3)
    (hs : s.normSq = 1) :
    d.norm = (Real.sqrt (((d.real.mul d.real.conj).s : ℚ) : ℝ),
      Real.sqrt ((((d.real.mul d.dual.conj).add (d.dual.mul d.real.conj)).s : ℚ) : ℝ)) ∧
    (fromRt s t).norm = (1, 0) :=
  ⟨rfl, DualQuat.norm_of_isUnit _ (fromRt_isUnit s t hs)⟩

/-- Witness for C6 at `d = Pure((1,2,3))` and the pose with unit quaternion
`(0,1,0,0)`, translation `(7,8,9)`. -/
theorem norm_dual_number_witness :
    (DualQuat.pureDQ ![1, 2, 3]).norm =
      (Real.sqrt ((((DualQuat.pureDQ ![1, 2, 3]).real.mul
          (DualQuat.pureDQ ![1, 2, 3]).real.conj).s : ℚ) : ℝ),
       Real.sqrt (((((DualQuat.pureDQ ![1, 2, 3]).real.mul
          (DualQuat.pureDQ ![1, 2, 3]).dual.conj).add
            ((DualQuat.pureDQ ![1, 2, 3]).dual.mul
              (DualQuat.pureDQ ![1, 2, 3]).real.conj)).s : ℚ) : ℝ)) ∧
    (fromRt ⟨0, 1, 0, 0⟩ ![7, 8, 9]).norm = (1, 0) :=
  norm_dual_number (DualQuat.pureDQ ![1, 2, 3]) ⟨0, 1, 0, 0⟩ ![7, 8, 9]
    (by simp [Quat.normSq])

/-- C9: `conj()` of the dual quaternion `(p, q)` is `(conj p, conj q)`, and
conjugating twice restores both the real and the dual part. -/
theorem conj_involution (d : DualQuat) :
    d.conj = ⟨d.real.conj, d.dual.conj, false⟩ ∧
    d.conj.conj.real = d.real ∧ d.conj.conj.dual = d.dual := by
  rcases d with ⟨⟨rs, rx, ry, rz⟩, ⟨ds, dx, dy, dz⟩, u⟩
  refine ⟨rfl, ?_, ?_⟩ <;> simp [DualQuat.conj, Quat.conj]

/-- C4: `matrix()` is the 8×8 block matrix `[[Re, 0], [Du, Re]]` of the 4×4
left-multiplication matrices of the real and dual parts, and
`a.matrix() @ b.vec == (a * b).vec` for all fully initialized dual
quaternions `a`, `b`. -/
theorem matrix_consistency (a b : DualQuat) :
    a.matrixD = Matrix.fromBlocks a.real.lmat 0 a.dual.lmat a.real.lmat ∧
    a.matrixD *ᵥ b.vecD = (a.mul b).vecD := by
  refine ⟨rfl, ?_⟩
  funext i
  rcases i with j | j <;>
    fin_cases j <;>
    · simp [DualQuat.matrixD, DualQuat.vecD, DualQuat.mul, Matrix.mulVec,
        Matrix.dotProduct, Fintype.sum_sum_type, Fin.sum_univ_four,
        Quat.lmat, Quat.vec4, Quat.mul, Quat.add]
      ring

/-- C7: every operation invoked on the sentinel-empty dual quaternion
(`real = None`, `dual = None`) — addition, subtraction, multiplication,
`matrix()`, `vec`, `conj()`, `norm()` — fails instead of returning a value
(the arithmetic operations and `matrix()`/`vec` through their `assert`s,
`conj()`/`norm()` by dereferencing `None`); on fully initialized operands,
`+` and `-` return the componentwise sum/difference as a new plain
`DualQuaternion`. -/
theorem empty_state_ops_fail :
    (∀ b : PyDualQuat, isError (pyAdd emptyDQ b) = true) ∧
    (∀ b : PyDualQuat, isError (pySub emptyDQ b) = true) ∧
    (∀ b : PyDualQuat, isError (pyMul emptyDQ b) = true) ∧
    isError (pyMatrix emptyDQ) = true ∧
    isError (pyVec emptyDQ) = true ∧
    isError (pyConj emptyDQ) = true ∧
    isError (pyNorm emptyDQ) = true ∧
    (∀ a b : DualQuat, pyAdd (toPy a) (toPy b)
        = .ok ⟨some (a.real.add b.real), some (a.dual.add b.dual), false⟩) ∧
    (∀ a b : DualQuat, pySub (toPy a) (toPy b)
        = .ok ⟨some (a.real.sub b.real), some (a.dual.sub b.dual), false⟩) := by
  refine ⟨fun b => ?_, fun b => ?_, fun b => ?_, rfl, rfl, rfl, ?_, fun a b => rfl,
    fun a b => rfl⟩ <;> rfl

/-- C8: `DualQuaternion.__init__` fails fast — with two supplied arguments it
raises `ValueError` unless both are `Quaternion` instances (and succeeds,
storing them, when they are); a single 8-element vector is split into real
= components 0..3 and dual = components 4..7; a single vector of any other
length, a single non-vector argument, or a dual-only call raises
`ValueError`. -/
theorem init_fail_fast :
    (∀ r d : Arg, r.given = true → d.given = true →
        (r.isQuat = false ∨ d.isQuat = false) → isError (dqInit r d) = true) ∧
    (∀ rq dq : Quat, dqInit (.quatArg rq) (.quatArg dq)
        = .ok ⟨some rq, some dq, false⟩) ∧
    (∀ xs : List ℚ, xs.length = 8 → dqInit (.vecArg xs) .noArg
        = .ok ⟨some (quatFromList (xs.take 4)), some (quatFromList (xs.drop 4)),
               false⟩) ∧
    (∀ xs : List ℚ, xs.length ≠ 8 → isError (dqInit (.vecArg xs) .noArg) = true) ∧
    (∀ q : Quat, isError (dqInit (.quatArg q) .noArg) = true) ∧
    isError (dqInit .otherArg .noArg) = true ∧
    (∀ d : Arg, d.given = true → isError (dqInit .noArg d) = true) := by
  refine ⟨?_, fun rq dq => rfl, ?_, ?_, fun q => rfl, rfl, ?_⟩
  · rintro r d hr hd hq
    cases r <;> cases d <;>
      simp_all [dqInit, Arg.given, Arg.isQuat, isError]
  · intro xs h
    simp [dqInit, h]
  · intro xs h
    simp [dqInit, h, isError]
  · rintro d hd
    cases d <;> simp_all [dqInit, Arg.given, isError]

/-- Witness for C8 at concrete arguments: an 8-vector split, a two-quaternion
construction, a vector of wrong length, and a non-quaternion pair. -/
theorem init_fail_fast_witness :
    isError (dqInit (.vecArg [1, 2, 3]) (.quatArg Quat.one)) = true ∧
    dqInit (.vecArg [1, 2, 3, 4, 5, 6, 7, 8]) .noArg
      = .ok ⟨some ⟨1, 2, 3, 4⟩, some ⟨5, 6, 7, 8⟩, false⟩ ∧
    isError (dqInit (.vecArg [1, 2, 3]) .noArg) = true :=
  ⟨init_fail_fast.1 (.vecArg [1, 2, 3]) (.quatArg Quat.one) rfl rfl (Or.inl rfl),
   by
    have h := init_fail_fast.2.2.1 [1, 2, 3, 4, 5, 6, 7, 8] rfl
    simpa [quatFromList] using h,
   init_fail_fast.2.2.2.1 [1, 2, 3] (by simp)⟩

/-- Modelled from the spec: a pose waypoint for the SE(3) splines — a
rotation (represented by a quaternion) together with a translation vector
(spec §3: waypoint poses of `InterpSplineSE3`). -/
structure PoseQ where
  rot : Quat
  trans : Vec3
deriving DecidableEq, Repr

instance : Inhabited PoseQ := ⟨⟨Quat.one, fun _ => 0⟩⟩

/-- Modelled from the spec: `InterpSplineSE3` holds ordered timepoints
(strictly increasing, length ≥ 2) and waypoint poses of the same length
(spec §3, §4.4); its implementation module is not among the provided
sources, so evaluation is modelled from the spec's description. -/
structure InterpSplineSE3 where
  timepoints : List ℚ
  waypoints : List PoseQ
deriving Repr

/-- Number of knots after the first that lie at or below the query time `t`
— the raw index of the spline segment containing `t` (the caller clamps it
to the last segment). -/
def findSegAux : List ℚ → ℚ → ℕ
  | _ :: t1 :: rest, t => if t < t1 then 0 else findSegAux (t1 :: rest) t + 1
  | _, _ => 0

/-- Modelled from the spec: geodesic-style rotation interpolation between
two consecutive waypoint quaternions — shortest-path sign correction of the
far endpoint followed by blending, exact at the segment endpoints (up to
quaternion sign, which represents the same rotation). -/
def rotInterp (q0 q1 : Quat) (u : ℚ) : Quat :=
  let q1' := if q0.s * q1.s + q0.x * q1.x + q0.y * q1.y + q0.z * q1.z < 0
    then q1.neg else q1
  (Quat.smul (1 - u) q0).add (Quat.smul u q1')

/-- Modelled from the spec: cubic Hermite polynomial on one segment of the
per-axis translation spline, through endpoint values `p0`, `p1` with
endpoint tangents `m0`, `m1` over a knot interval of width `dt`. -/
def hermite (p0 p1 m0 m1 : Vec3) (dt u : ℚ) : Vec3 := fun k =>
  (2*u^3 - 3*u^2 + 1) * p0 k + (u^3 - 2*u^2 + u) * (dt * m0 k)
    + (-2*u^3 + 3*u^2) * p1 k + (u^3 - u^2) * (dt * m1 k)

/-- Modelled from the spec: finite-difference (Catmull-Rom style) tangent of
the translation spline at knot `i`, one-sided at the two ends. -/
def tangentAt (ts : List ℚ) (ps : List Vec3) (i : ℕ) : Vec3 :=
  let lo := i - 1
  let hi := min (i + 1) (ts.length - 1)
  fun k => (ps.getD hi (fun _ => 0) k - ps.getD lo (fun _ => 0) k)
    / (ts.getD hi 0 - ts.getD lo 0)

/-- Modelled from the spec: evaluation of `InterpSplineSE3` at a query time
`t` (spec §4.4) — locate the knot segment containing `t`, form the local
parameter `u ∈ [0,1]`, and interpolate the rotation geodesically between the
two bracketing waypoint rotations and the translation by the cubic spline
through the waypoint translations. -/
def InterpSplineSE3.evaluate (spl : InterpSplineSE3) (t : ℚ) : PoseQ :=
  let i := min (findSegAux spl.timepoints t) (spl.timepoints.length - 2)
  let t0 := spl.timepoints.getD i 0
  let t1 := spl.timepoints.getD (i + 1) 0
  let u := (t - t0) / (t1 - t0)
  let w0 := spl.waypoints.getD i default
  let w1 := spl.waypoints.getD (i + 1) default
  let trs := spl.waypoints.map PoseQ.trans
  { rot := rotInterp w0.rot w1.rot u
    trans := hermite w0.trans w1.trans
      (tangentAt spl.timepoints trs i) (tangentAt spl.timepoints trs (i + 1))
      (t1 - t0) u }

lemma chain_head_le (l : List ℚ) (h : l.Chain' (· < ·)) :
    ∀ j, j < l.length → l.getD 0 0 ≤ l.getD j 0 := by
  induction l with
  | nil => intro j hj; simp at hj
  | cons a tail ih =>
    intro j hj
    cases j with
    | zero => simp
    | succ k =>
      simp only [List.getD_cons_succ, List.getD_cons_zero]
      cases tail with
      | nil => simp at hj
      | cons b rest =>
        have hab : a < b := (List.chain'_cons.mp h).1
        have htail : (b :: rest).Chain' (· < ·) := (List.chain'_cons.mp h).2
        have hk : k < (b :: rest).length := by simpa using hj
        have hbk := ih htail k hk
        simp only [List.getD_cons_zero] at hbk
        exact le_trans (le_of_lt hab) hbk

lemma chain_getD_lt (l : List ℚ) (h : l.Chain' (· < ·)) :
    ∀ j, j + 1 < l.length → l.getD j 0 < l.getD (j + 1) 0 := by
  induction l with
  | nil => intro j hj; simp at hj
  | cons a tail ih =>
    intro j hj
    cases tail with
    | nil => simp at hj
    | cons b rest =>
      cases j with
      | zero => simpa using (List.chain'_cons.mp h).1
      | succ k =>
        have := ih (List.chain'_cons.mp h).2 k (by simpa using hj)
        simpa using this

lemma findSegAux_knot :
    ∀ (ts : List ℚ), ts.Chain' (· < ·) → ∀ i, i + 1 < ts.length →
      findSegAux ts (ts.getD i 0) = i := by
  intro ts
  induction ts with
  | nil => intro _ i hi; simp at hi
  | cons t0 tail ih =>
    intro h i hi
    cases tail with
    | nil => simp at hi
    | cons t1 rest =>
      cases i with
      | zero =>
        have h01 : t0 < t1 := (List.chain'_cons.mp h).1
        simp [findSegAux, h01]
      | succ j =>
        have htail : (t1 :: rest).Chain' (· < ·) := (List.chain'_cons.mp h).2
        have hj1 : j + 1 < (t1 :: rest).length := by simpa using hi
        have hle : t1 ≤ (t1 :: rest).getD j 0 := by
          have hh := chain_head_le _ htail j (by omega)
          simpa using hh
        have ht : (t0 :: t1 :: rest).getD (j + 1) 0 = (t1 :: rest).getD j 0 :=
          List.getD_cons_succ
        rw [ht]
        show (if (t1 :: rest).getD j 0 < t1 then 0
          else findSegAux (t1 :: rest) ((t1 :: rest).getD j 0) + 1) = j + 1
        rw [if_neg (not_lt.mpr hle), ih htail j hj1]

lemma findSegAux_last :
    ∀ (ts : List ℚ), ts.Chain' (· < ·) → 2 ≤ ts.length →
      findSegAux ts (ts.getD (ts.length - 1) 0) = ts.length - 1 := by
  intro ts
  induction ts with
  | nil => intro _ h2; simp at h2
  | cons t0 tail ih =>
    intro h h2
    cases tail with
    | nil => simp at h2
    | cons t1 rest =>
      have htail : (t1 :: rest).Chain' (· < ·) := (List.chain'_cons.mp h).2
      have hlen : (t0 :: t1 :: rest).length - 1 = ((t1 :: rest).length - 1) + 1 := by
        simp
      have ht : (t0 :: t1 :: rest).getD ((t0 :: t1 :: rest).length - 1) 0
          = (t1 :: rest).getD ((t1 :: rest).length - 1) 0 := by
        rw [hlen]; exact List.getD_cons_succ
      have hle : t1 ≤ (t1 :: rest).getD ((t1 :: rest).length - 1) 0 := by
        have hh := chain_head_le _ htail ((t1 :: rest).length - 1) (by simp)
        simpa using hh
      rw [ht]
      show (if (t1 :: rest).getD ((t1 :: rest).length - 1) 0 < t1 then 0
        else findSegAux (t1 :: rest)
          ((t1 :: rest).getD ((t1 :: rest).length - 1) 0) + 1)
        = (t0 :: t1 :: rest).length - 1
      rw [if_neg (not_lt.mpr hle)]
      cases rest with
      | nil => simp [findSegAux]
      | cons t2 rest2 =>
        rw [ih htail (by simp)]
        simp

lemma rotInterp_zero (q0 q1 : Quat) : rotInterp q0 q1 0 = q0 := by
  rcases q0 with ⟨a, b, c, d⟩
  rcases q1 with ⟨e, f, g, k⟩
  simp only [rotInterp, Quat.smul, Quat.add, Quat.neg]
  split <;> simp

lemma rotInterp_one (q0 q1 : Quat) :
    rotInterp q0 q1 1 = q1 ∨ rotInterp q0 q1 1 = q1.neg := by
  rcases q0 with ⟨a, b, c, d⟩
  rcases q1 with ⟨e, f, g, k⟩
  simp only [rotInterp, Quat.smul, Quat.add, Quat.neg]
  split
  · right; simp
  · left; simp

lemma hermite_zero (p0 p1 m0 m1 : Vec3) (dt : ℚ) :
    hermite p0 p1 m0 m1 dt 0 = p0 := by
  funext k
  simp [hermite]

lemma hermite_one (p0 p1 m0 m1 : Vec3) (dt : ℚ) :
    hermite p0 p1 m0 m1 dt 1 = p1 := by
  funext k
  simp only [hermite]
  ring

/-- C10: an `InterpSplineSE3` built from strictly increasing timepoints
(length ≥ 2) and matching pose waypoints, evaluated at any input timepoint,
returns the corresponding waypoint pose — the translation exactly and the
rotation up to quaternion sign (i.e. zero angular distance).  The spline
implementation is not among the provided sources; `evaluate` is modelled
from the specification (§4.4). -/
theorem interp_spline_exact (spl : InterpSplineSE3)
    (hmono : spl.timepoints.Chain' (· < ·))
    (_hlen : spl.waypoints.length = spl.timepoints.length)
    (h2 : 2 ≤ spl.timepoints.length)
    (i : ℕ) (hi : i < spl.timepoints.length) :
    (spl.evaluate (spl.timepoints.getD i 0)).trans
        = (spl.waypoints.getD i default).trans ∧
    ((spl.evaluate (spl.timepoints.getD i 0)).rot
        = (spl.waypoints.getD i default).rot ∨
     (spl.evaluate (spl.timepoints.getD i 0)).rot
        = ((spl.waypoints.getD i default).rot).neg) := by
  by_cases hc : i + 1 < spl.timepoints.length
  · have hfind := findSegAux_knot spl.timepoints hmono i hc
    have hmin : min (findSegAux spl.timepoints (spl.timepoints.getD i 0))
        (spl.timepoints.length - 2) = i := by
      rw [hfind]; omega
    have hu : (spl.timepoints.getD i 0 - spl.timepoints.getD i 0)
        / (spl.timepoints.getD (i + 1) 0 - spl.timepoints.getD i 0) = 0 := by
      rw [sub_self, zero_div]
    simp only [InterpSplineSE3.evaluate, hmin, hu, rotInterp_zero, hermite_zero]
    exact ⟨trivial, Or.inl trivial⟩
  · have hi' : i = spl.timepoints.length - 1 := by omega
    subst hi'
    have hfind := findSegAux_last spl.timepoints hmono h2
    have hmin : min (findSegAux spl.timepoints
          (spl.timepoints.getD (spl.timepoints.length - 1) 0))
        (spl.timepoints.length - 2) = spl.timepoints.length - 2 := by
      rw [hfind]; omega
    have hseg1 : spl.timepoints.length - 2 + 1 = spl.timepoints.length - 1 := by
      omega
    have hlt : spl.timepoints.getD (spl.timepoints.length - 2) 0
        < spl.timepoints.getD (spl.timepoints.length - 1) 0 := by
      have hh := chain_getD_lt spl.timepoints hmono
        (spl.timepoints.length - 2) (by omega)
      rwa [hseg1] at hh
    have hu : (spl.timepoints.getD (spl.timepoints.length - 1) 0
          - spl.timepoints.getD (spl.timepoints.length - 2) 0)
        / (spl.timepoints.getD (spl.timepoints.length - 1) 0
          - spl.timepoints.getD (spl.timepoints.length - 2) 0) = 1 :=
      div_self (ne_of_gt (sub_pos.mpr hlt))
    simp only [InterpSplineSE3.evaluate, hmin, hseg1, hu, hermite_one]
    exact ⟨trivial, rotInterp_one _ _⟩

/-- A concrete three-waypoint spline used to witness C10. -/
def demoSpline : InterpSplineSE3 :=
  ⟨[0, 1, 3],
   [⟨Quat.one, ![0, 0, 0]⟩, ⟨⟨0, 1, 0, 0⟩, ![1, 2, 3]⟩,
    ⟨⟨0, 0, 1, 0⟩, ![4, 5, 6]⟩]⟩

/-- Witness for C10 at the middle timepoint of a concrete spline with
timepoints `0, 1, 3`. -/
theorem interp_spline_exact_witness :
    (demoSpline.evaluate (demoSpline.timepoints.getD 1 0)).trans
        = (demoSpline.waypoints.getD 1 default).trans ∧
    ((demoSpline.evaluate (demoSpline.timepoints.getD 1 0)).rot
        = (demoSpline.waypoints.getD 1 default).rot ∨
     (demoSpline.evaluate (demoSpline.timepoints.getD 1 0)).rot
        = ((demoSpline.waypoints.getD 1 default).rot).neg) :=
  interp_spline_exact demoSpline (by simp [demoSpline, List.chain'_cons]) rfl
    (by decide) 1 (by decide)
